import Mathlib

/-!
# Verification of the enex2paperless note-processing pipeline

Shallow embedding of the core of the `enex2paperless` repository: the
upload-worker resource loop (`pkg/enex` `UploadFromNoteChannel`), the
type filter (`checkFileType`), the base64 payload normalization, the
archive extractor (`unzipFile`), the tag resolver/cache
(`getOrCreateTagID`), the pipeline coordinator's retry loop (`Process`),
and the disk saver (`SaveResourceToDisk`).

Pure string/list manipulation is translated directly from the Go source.
External collaborators (the HTTP client, the filesystem, stdin, the Go
standard library's base64 decoder and time parser) are modelled as
oracle functions carried in an environment record, so theorems quantify
over every possible behaviour of those collaborators.
-/

namespace Enex

/-! ## Data model (pkg/enex/enex.go) -/

/-- `ResourceAttributes` — the fields the pipeline reads. -/
structure ResourceAttributes where
  fileName : String
  deriving Repr, DecidableEq

/-- `Resource` — one base64 attachment of a note. -/
structure Resource where
  data : String
  mime : String
  resourceAttributes : ResourceAttributes
  deriving Repr, DecidableEq

/-- `Note` — one record from the export file. -/
structure Note where
  title : String
  created : String
  tags : List String
  resources : List Resource
  deriving Repr, DecidableEq

/-! ## Go string primitives

Kernel-computable models of the Go standard-library string functions the
pipeline uses (`strings.Split` on a one-character separator,
`strings.ToLower`, `strings.ReplaceAll` with a one-character pattern and
empty replacement, `strings.Contains`). -/

/-- `strings.Split` on a one-character separator: every maximal run between
separators, empty fields kept (`splitOnChar '/' "a//b" = ["a", "", "b"]`). -/
def splitOnChar (sep : Char) : List Char → List (List Char)
  | [] => [[]]
  | c :: cs =>
    let rest := splitOnChar sep cs
    if c = sep then [] :: rest
    else
      match rest with
      | [] => [[c]]
      | h :: t => (c :: h) :: t

/-- `strings.Split(s, sep)` for a one-character `sep`. -/
def goSplit (s : String) (sep : Char) : List String :=
  (splitOnChar sep s.data).map String.mk

/-- `strings.ToLower` (the inputs in scope are ASCII). -/
def goToLower (s : String) : String :=
  String.mk (s.data.map Char.toLower)

/-- `strings.ReplaceAll(s, pat, "")` for a one-character pattern: every
occurrence of the character is removed. -/
def goRemoveChar (c : Char) (s : String) : String :=
  String.mk (s.data.filter (fun a => a ≠ c))

/-- `strings.Contains`: `sub` occurs somewhere in `s` (every string contains
the empty string). -/
def strContains (s sub : String) : Bool :=
  s.data.tails.any (fun t => sub.data.isPrefixOf t)

/-! ## Type filter (checkFileType / getExtensionFromMimeType) -/

/-- `getExtensionFromMimeType` (pkg/enex/methods.go): `strings.Split(mimeType, "/")`
must yield exactly two parts; the second is the "extension". -/
def getExtensionFromMimeType (mimeType : String) : Except String String :=
  let parts := goSplit mimeType '/'
  if parts.length ≠ 2 then
    Except.error ("invalid MIME type format: " ++ mimeType)
  else
    Except.ok (parts.getD 1 "")

/-- `checkFileType` (pkg/enex, part_011 method form and the package-level
variants have the same logic): `"any"` admits everything; otherwise the
extension derived from the MIME type is lowercased and compared against the
admission list, where each token is lowercased except that a token that is
exactly `"txt"` (case-sensitive comparison in the source) is replaced by
`"plain"`. -/
def checkFileType (fileTypes : List String) (mimeType : String) : Except String Bool :=
  if fileTypes.contains "any" then
    Except.ok true
  else
    match getExtensionFromMimeType mimeType with
    | Except.error e => Except.error e
    | Except.ok extension =>
      let extensionLower := goToLower extension
      let allowedFileTypes := fileTypes.map (fun ft =>
        if ft == "txt" then "plain" else goToLower ft)
      Except.ok (allowedFileTypes.contains extensionLower)

/-! ## Base64 payload normalization (UploadFromNoteChannel, part_007 lines 172-189) -/

/-- The payload massaging exactly as the worker performs it: a padded value is
computed from the raw payload, but the subsequent strip steps restart from
`resource.Data`, so the computed padding is discarded and only the whitespace
stripping survives into the value that reaches the validator and decoder. -/
def normalizeData (s : String) : String :=
  let data := s
  let padding := data.length % 4
  let data := if padding > 0 then data ++ String.mk (List.replicate (4 - padding) '=') else data
  let data := goRemoveChar '\n' s
  let data := goRemoveChar ' ' data
  data

/-- The normalization as the specification's words describe it: strip embedded
newlines and spaces first, then re-pad with `=` to a multiple of 4 when the
derived padding length is non-zero. Stated only to compare against
`normalizeData`, which is translated from the source. -/
def specNormalizeData (s : String) : String :=
  let stripped := goRemoveChar ' ' (goRemoveChar '\n' s)
  let padding := stripped.length % 4
  if padding > 0 then stripped ++ String.mk (List.replicate (4 - padding) '=') else stripped

/-- A character of the base64 standard alphabet (`[A-Za-z0-9+/]`). -/
def isBase64Char (c : Char) : Bool :=
  ('A' ≤ c && c ≤ 'Z') || ('a' ≤ c && c ≤ 'z') || ('0' ≤ c && c ≤ '9') || c == '+' || c == '/'

/-- The validator regex `^[A-Za-z0-9+/]*={0,2}$`: a (possibly empty) run of
alphabet characters followed by at most two `=`. Since `=` is not an alphabet
character, dropping the maximal alphabet prefix leaves exactly the padding. -/
def validBase64 (s : String) : Bool :=
  let rest := s.data.dropWhile isBase64Char
  rest.all (fun c => c == '=') && rest.length ≤ 2

/-! ## Upload worker (UploadFromNoteChannel, part_007 lines 143-355)

The per-resource loop body is translated branch by branch in source order.
Effects on external collaborators are oracles in `WorkerEnv`:
`decodeOk` models Go's `base64.StdEncoding.DecodeString` succeeding,
`dateOk` models `ConvertDateFormat` (`time.Parse`) succeeding,
`existsResult`/`mkdirOk`/`writeOk` model the afero filesystem calls,
`overwriteResponse` models the stdin answer to the overwrite prompt,
`getTagId`/`createTagOk` model the tag API (0 from `GetTagID` means "not
found", matching the worker, which only logs a `GetTagID` error), and
`uploadStatus` models the HTTP status of `PaperlessFile.Upload`'s document
POST (`none` models any failure before a response is received). -/

/-- Oracles for the worker's external collaborators. -/
structure WorkerEnv where
  fileTypes : List String
  additionalTags : List String
  outputFolder : String
  mkdirOk : Bool
  existsResult : String → Except Unit Bool
  overwriteResponse : String
  writeOk : String → Bool
  decodeOk : String → Bool
  dateOk : String → Bool
  getTagId : String → Nat
  createTagOk : String → Bool
  uploadStatus : Resource → Option Nat

/-- Outcome of one iteration of the `resource` loop, as it affects the
counters, the failure channel and the loop control. -/
inductive StepOutcome where
  /-- `continue`: resource skipped, nothing sent, no counter change. -/
  | skip
  /-- note sent to `FailedNoteChannel`, then `break` (or `break resourceLoop`). -/
  | failBreak
  /-- disk branch: write completed, `Uploads.Add(1)`, then `break`. -/
  | diskSaved
  /-- remote branch: 200 response, `Uploads.Add(1)`, loop continues. -/
  | uploadedRemote
  deriving Repr, DecidableEq

/-- `Upload` (pkg/paperless/methods.go line 98) treats exactly a 200 status as
success: `if resp.StatusCode != 200 { ... return error }`. -/
def uploadRespOk (status : Nat) : Bool :=
  status == 200

/-- The spec's words for remote persistence success — "any 2xx response to the
document-upload request". Stated only to compare against `uploadRespOk`. -/
def specIs2xx (status : Nat) : Bool :=
  200 ≤ status && status < 300

/-- The worker's tag-resolution prelude for the remote branch: `GetTagID`
errors are only logged; an id of 0 triggers `CreateTag`, whose failure routes
the note to the failure channel with `break resourceLoop`. -/
def resolveTagsOk (env : WorkerEnv) (tags : List String) : Bool :=
  tags.all (fun t => env.getTagId t ≠ 0 || env.createTagOk t)

/-- One iteration of the `resource` loop of `UploadFromNoteChannel`
(part_007), in source order: type filter (errors and unwanted types skip),
normalization, base64-alphabet validation (invalid skips), decoding (failure
fails the note), then either the disk branch (mkdir, existence check with
overwrite prompt, write, counted then `break`) or the remote branch (date
conversion, tag resolution, document POST counted on a 200). -/
def processResource (env : WorkerEnv) (note : Note) (r : Resource) : StepOutcome :=
  match checkFileType env.fileTypes r.mime with
  | Except.error _ => StepOutcome.skip
  | Except.ok isWantedFileType =>
    if !isWantedFileType then StepOutcome.skip
    else
      let data := normalizeData r.data
      if !validBase64 data then StepOutcome.skip
      else if !env.decodeOk data then StepOutcome.failBreak
      else if env.outputFolder ≠ "" then
        if !env.mkdirOk then StepOutcome.failBreak
        else
          let fileName := env.outputFolder ++ "/" ++ r.resourceAttributes.fileName
          match env.existsResult fileName with
          | Except.error _ => StepOutcome.failBreak
          | Except.ok exists_ =>
            if exists_ && goToLower env.overwriteResponse != "y" then StepOutcome.failBreak
            else if !env.writeOk fileName then StepOutcome.failBreak
            else StepOutcome.diskSaved
      else
        if !env.dateOk note.created then StepOutcome.failBreak
        else if !resolveTagsOk env (note.tags ++ env.additionalTags) then StepOutcome.failBreak
        else
          match env.uploadStatus r with
          | none => StepOutcome.failBreak
          | some status =>
            if !uploadRespOk status then StepOutcome.failBreak
            else StepOutcome.uploadedRemote

/-- The `resource` loop over a note's resources. Returns
`(Uploads increments, sends to FailedNoteChannel)`. A `failBreak` sends the
note once and stops; `diskSaved` counts one upload and stops (the `break`
after the successful write); `uploadedRemote` counts one upload and
continues; `skip` continues. -/
def processResources (env : WorkerEnv) (note : Note) : List Resource → Nat × Nat
  | [] => (0, 0)
  | r :: rs =>
    match processResource env note r with
    | StepOutcome.skip => processResources env note rs
    | StepOutcome.failBreak => (0, 1)
    | StepOutcome.diskSaved => (1, 0)
    | StepOutcome.uploadedRemote =>
      let rest := processResources env note rs
      (rest.1 + 1, rest.2)

/-- The prefix of the resource list the loop actually executes: everything up
to and including the first `failBreak` or `diskSaved`. -/
def executedResources (env : WorkerEnv) (note : Note) : List Resource → List Resource
  | [] => []
  | r :: rs =>
    match processResource env note r with
    | StepOutcome.skip => r :: executedResources env note rs
    | StepOutcome.failBreak => [r]
    | StepOutcome.diskSaved => [r]
    | StepOutcome.uploadedRemote => r :: executedResources env note rs

/-- Whether an executed step persisted its resource (and incremented `Uploads`). -/
def isSuccessStep (env : WorkerEnv) (note : Note) (r : Resource) : Bool :=
  match processResource env note r with
  | StepOutcome.diskSaved => true
  | StepOutcome.uploadedRemote => true
  | _ => false

/-- The per-note body of `UploadFromNoteChannel`: a note with fewer than one
resource is ignored (`continue` before any counter update); otherwise
`NumNotes.Add(1)` runs exactly once and the resource loop follows. Returns
`(NumNotes increments, Uploads increments, sends to FailedNoteChannel)`. -/
def processNote (env : WorkerEnv) (note : Note) : Nat × Nat × Nat :=
  if note.resources.length < 1 then (0, 0, 0)
  else
    let loop := processResources env note note.resources
    (1, loop.1, loop.2)

/-! ## Archive extractor (unzipFile, pkg/enex/unzip.go lines 49-115) -/

/-- `isSystemFile` (pkg/enex/unzip.go lines 16-36): case-insensitive substring
match against the system-artifact pattern set. -/
def isSystemFile (name : String) : Bool :=
  let n := goToLower name
  [".ds_store", "thumbs.db", "desktop.ini", "__macosx", "._"].any
    (fun systemFile => strContains n systemFile)

/-- One entry of the in-memory zip archive, with the fields `unzipFile` reads. -/
structure ZipEntry where
  name : String
  isDir : Bool
  deriving Repr, DecidableEq

/-- Non-empty path segments of a slash-separated path. -/
def pathSegs (p : String) : List String :=
  (goSplit p '/').filter (fun seg => seg ≠ "")

/-- Lexical cleaning of a rooted path's segments, as `path/filepath.Clean`
performs it for absolute paths: `.` vanishes, `..` removes the previous
segment (and vanishes at the root). -/
def cleanSegsAbs (segs : List String) : List String :=
  segs.foldl (fun acc seg =>
    if seg = "." then acc
    else if seg = ".." then acc.dropLast
    else acc ++ [seg]) []

/-- `filepath.Join(dir, name)` for an absolute `dir` on a Unix filesystem:
concatenate with a separator and clean the result. -/
def filepathJoinAbs (dir name : String) : String :=
  "/" ++ String.intercalate "/" (cleanSegsAbs (pathSegs dir ++ pathSegs name))

/-- The sequence of filesystem paths `unzipFile` creates and writes
(`fs.Create(filePath)` at `filepath.Join(destDir, file.Name)`), one per entry
that is neither a directory nor a system artifact, in archive order. The
model assumes the destination directory is absolute and that the open, read,
create and write calls succeed; the source applies no other filter and no
confinement check to the entry name before writing. -/
def unzipWrites (destDir : String) (entries : List ZipEntry) : List String :=
  entries.filterMap (fun file =>
    if file.isDir || isSystemFile file.name then none
    else some (filepathJoinAbs destDir file.name))

/-- A written path is confined under the destination root when the cleaned
root segments are a prefix of its cleaned segments. -/
def pathUnderRoot (root p : String) : Bool :=
  (cleanSegsAbs (pathSegs root)).isPrefixOf (cleanSegsAbs (pathSegs p))

/-! ## Pipeline coordinator retry loop (Process, part_012 lines 203-267) -/

/-- `ProcessOptions` (part_012 lines 104-115). The doc comment in the source
reads: "RetryPromptFunc is called when there are failed notes ... If nil,
retries are automatically attempted without prompting." -/
structure ProcessOptions where
  concurrentWorkers : Int
  outputFolder : String
  retryPromptFunc : Option (Nat → Bool)

/-- The coordinator's retry decision (part_012): `shouldRetry := true;
if opts.RetryPromptFunc != nil { shouldRetry = opts.RetryPromptFunc(n) }` —
an absent callback leaves the decision at `true`. -/
def shouldRetryDecision (opts : ProcessOptions) (failedCount : Nat) : Bool :=
  match opts.retryPromptFunc with
  | none => true
  | some f => f failedCount

/-- The retry loop of `Process`: stop when the failure accumulator is empty or
the decision declines; otherwise run one more cycle over the failed notes and
loop on the notes that failed again. `cycle` abstracts one
feeder/worker/catcher pass, returning the notes failing that cycle and the
cycle's upload count; `fuel` bounds the recursion (the source loop itself has
no bound). Returns `(final failed notes, uploads accumulated by the retry
cycles, number of retry cycles run)`. -/
def retryLoop (opts : ProcessOptions) (cycle : List Note → List Note × Nat) :
    Nat → List Note → List Note × Nat × Nat
  | 0, failedNotes => (failedNotes, 0, 0)
  | Nat.succ fuel, failedNotes =>
    if failedNotes.length = 0 then (failedNotes, 0, 0)
    else if !shouldRetryDecision opts failedNotes.length then (failedNotes, 0, 0)
    else
      let out := cycle failedNotes
      let rest := retryLoop opts cycle fuel out.1
      (rest.1, out.2 + rest.2.1, rest.2.2 + 1)

/-! ## Disk saver (SaveResourceToDisk) -/

/-- `filepath.Ext`: the suffix of the file name beginning at the final dot,
or the empty string when there is no dot. -/
def extOf (fileName : String) : String :=
  let tail := fileName.data.reverse.takeWhile (fun c => c ≠ '.')
  if tail.length = fileName.data.length then ""
  else String.mk ('.' :: tail.reverse)

/-- The file name with its `extOf` extension removed. -/
def baseOf (fileName : String) : String :=
  String.mk (fileName.data.take (fileName.data.length - (extOf fileName).data.length))

/-- First free `base-i.ext` name, probing `i, i+1, ...` while the candidate is
taken, up to `fuel` probes (`none` when all probed candidates are taken). -/
def findFreeName (existing : List String) (base ext : String) : Nat → Nat → Option String
  | 0, _ => none
  | Nat.succ fuel, i =>
    let candidate := base ++ "-" ++ toString i ++ ext
    if existing.contains candidate then findFreeName existing base ext fuel (i + 1)
    else some candidate

/-- Modelled from the spec: the repository's `SaveResourceToDisk`
implementation is not under `src/` — only its tests
(`TestSaveResourceToDisk`, part_004/part_005 and pkg/enex/methods_test.go)
and its caller (`processZipFile`, part_009) are. Follows the spec's words:
"persist to disk with collision-avoidance: if the target filename exists,
append an incrementing numeric suffix before the extension (`name-1.ext`,
`name-2.ext`, ...) until a free name is found; never overwrite." The
filesystem is a finite association list `path → contents`; a write prepends a
binding for a path not currently bound. -/
def saveResourceToDisk (fs : List (String × String)) (data : String)
    (fileName : String) (outputFolder : String) : List (String × String) :=
  let target := outputFolder ++ "/" ++ fileName
  if (fs.map Prod.fst).contains target then
    match findFreeName (fs.map Prod.fst)
        (outputFolder ++ "/" ++ baseOf fileName) (extOf fileName) (fs.length + 1) 1 with
    | none => fs
    | some free => (free, data) :: fs
  else (target, data) :: fs

/-- A concrete note for the coordinator theorems. -/
def cNote : Note :=
  { title := "t", created := "20220101T120000Z", tags := [], resources := [] }

/-- The options `Process` receives when the caller supplies no
retry-decision callback. -/
def nilPromptOpts : ProcessOptions :=
  { concurrentWorkers := 1, outputFolder := "", retryPromptFunc := none }

/-- A retry cycle in which every fed note fails again and nothing uploads. -/
def allFailCycle : List Note → List Note × Nat :=
  fun failed => (failed, 0)

/-- An environment in which every external collaborator succeeds, in remote
upload mode with every file type admitted. -/
def envRemote : WorkerEnv :=
  { fileTypes := ["any"], additionalTags := [], outputFolder := "",
    mkdirOk := true, existsResult := fun _ => Except.ok false,
    overwriteResponse := "", writeOk := fun _ => true,
    decodeOk := fun _ => true, dateOk := fun _ => true,
    getTagId := fun _ => 1, createTagOk := fun _ => true,
    uploadStatus := fun _ => some 200 }

/-- The same environment in disk mode. -/
def envDisk : WorkerEnv :=
  { envRemote with outputFolder := "/tmp/output" }

/-- The same environment with the remote answering 201 Created. -/
def env201 : WorkerEnv :=
  { envRemote with uploadStatus := fun _ => some 201 }

/-- A well-formed PDF resource. -/
def rPdf : Resource :=
  { data := "QQ==", mime := "application/pdf",
    resourceAttributes := { fileName := "document1.pdf" } }

/-- A second well-formed PDF resource. -/
def rPdf2 : Resource :=
  { data := "Qg==", mime := "application/pdf",
    resourceAttributes := { fileName := "document2.pdf" } }

/-- A resource whose payload fails the base64-alphabet validation even after
normalization (the payload of `TestProcessingInvalidBase64Data`). -/
def rBad : Resource :=
  { data := "not valid base64 @#$%", mime := "application/pdf",
    resourceAttributes := { fileName := "invalid.pdf" } }

/-- A note with no resources. -/
def noteEmpty : Note :=
  { title := "Note without attachments", created := "20220101T120000Z",
    tags := [], resources := [] }

/-- A note with one well-formed resource. -/
def noteOne : Note :=
  { title := "one", created := "20220101T120000Z", tags := [], resources := [rPdf] }

/-- A note with several well-formed resources. -/
def noteMulti : Note :=
  { title := "Note with multiple attachments", created := "20220101T120000Z",
    tags := [], resources := [rPdf, rPdf2] }

/-- The filesystem after the first save of `test.txt` into `/test/output`. -/
def saveFs1 : List (String × String) :=
  saveResourceToDisk [] "d1" "test.txt" "/test/output"

/-- ... after the second save. -/
def saveFs2 : List (String × String) :=
  saveResourceToDisk saveFs1 "d2" "test.txt" "/test/output"

/-- ... after the third save. -/
def saveFs3 : List (String × String) :=
  saveResourceToDisk saveFs2 "d3" "test.txt" "/test/output"

end Enex

namespace Paperless

/-! ## Tag resolver/cache (getOrCreateTagID, part_014 lines 20-60)

`getOrCreateTagID` first reads the cache under `tagCacheMutex.RLock`, then on
a miss takes `tagCacheMutex.Lock` for the whole remainder (double-check,
`getTagID` lookup, `createTag`, cache fill). The model therefore gives each
caller two atomic transitions: the fast read (one map read under the read
lock) and the locked section (atomic because the write lock is held
throughout). All callers resolve the same single name; the remote calls are
modelled as succeeding, with `k` the identifier the server assigns on
creation. `creates` counts issued `createTag` calls. -/

/-- Control point of one caller of `getOrCreateTagID`. -/
inductive CallerPhase where
  /-- has not executed the fast read yet. -/
  | start
  /-- fast read found no cache entry; waiting on the write lock. -/
  | sawMiss
  /-- returned with this identifier. -/
  | done (id : Nat)
  deriving Repr, DecidableEq

/-- Shared state: the cache entry for the name, the remote system's tag for
the name, the number of `createTag` calls issued, and every caller's phase. -/
structure TagSys where
  cache : Option Nat
  remote : Option Nat
  creates : Nat
  callers : List CallerPhase
  deriving Repr, DecidableEq

/-- Initial state for `n` concurrent first-time resolutions of one
previously-unknown name: cold cache, no remote tag, no creation calls. -/
def TagSys.init (n : Nat) : TagSys :=
  ⟨none, none, 0, List.replicate n CallerPhase.start⟩

/-- One atomic transition of the tag-resolution system (`k` is the identifier
the remote assigns at creation). -/
inductive TagStep (k : Nat) : TagSys → TagSys → Prop
  /-- fast read under `RLock` hits the cache: return the cached id. -/
  | fastHit (s : TagSys) (i : Nat) (id : Nat) :
      s.callers.get? i = some CallerPhase.start → s.cache = some id →
      TagStep k s { s with callers := s.callers.set i (CallerPhase.done id) }
  /-- fast read under `RLock` misses: proceed to the write lock. -/
  | fastMiss (s : TagSys) (i : Nat) :
      s.callers.get? i = some CallerPhase.start → s.cache = none →
      TagStep k s { s with callers := s.callers.set i CallerPhase.sawMiss }
  /-- locked section, double-check hits (another caller filled the cache). -/
  | lockedHit (s : TagSys) (i : Nat) (id : Nat) :
      s.callers.get? i = some CallerPhase.sawMiss → s.cache = some id →
      TagStep k s { s with callers := s.callers.set i (CallerPhase.done id) }
  /-- locked section, double-check misses, `getTagID` finds the tag remotely:
  cache it without creating. -/
  | lockedRemoteHit (s : TagSys) (i : Nat) (id : Nat) :
      s.callers.get? i = some CallerPhase.sawMiss → s.cache = none → s.remote = some id →
      TagStep k s { s with cache := some id,
                           callers := s.callers.set i (CallerPhase.done id) }
  /-- locked section, double-check misses, `getTagID` finds nothing:
  `createTag` is issued, the server assigns `k`, the result is cached. -/
  | lockedCreate (s : TagSys) (i : Nat) :
      s.callers.get? i = some CallerPhase.sawMiss → s.cache = none → s.remote = none →
      TagStep k s { cache := some k, remote := some k, creates := s.creates + 1,
                    callers := s.callers.set i (CallerPhase.done k) }

/-- Reachability of the tag-resolution system from the cold-start state. -/
def TagReachable (k n : Nat) (s : TagSys) : Prop :=
  Relation.ReflTransGen (TagStep k) (TagSys.init n) s

/-- Whether a caller has returned. -/
def CallerPhase.isDone : CallerPhase → Bool
  | CallerPhase.done _ => true
  | _ => false

/-- The inductive invariant of the tag-resolution system: the caller count is
stable; at most one creation call is ever issued; while the cache is cold the
remote is untouched, nothing was created and nobody has returned; a filled
cache holds exactly the created identifier; and every returned caller
returned that identifier. -/
def TagInv (k n : Nat) (s : TagSys) : Prop :=
  s.callers.length = n ∧
  s.creates ≤ 1 ∧
  (s.cache = none → s.remote = none ∧ s.creates = 0 ∧
    ∀ c ∈ s.callers, ∀ id, c ≠ CallerPhase.done id) ∧
  (∀ id, s.cache = some id → id = k ∧ s.creates = 1) ∧
  (∀ id, s.remote = some id → id = k) ∧
  (∀ c ∈ s.callers, ∀ id, c = CallerPhase.done id → id = k)

/-- The four concrete states of a two-caller interleaving: caller 0 misses,
caller 0 creates under the lock, caller 1 then hits the cache on its fast
read. -/
def tagS1 : TagSys := ⟨none, none, 0, [CallerPhase.sawMiss, CallerPhase.start]⟩

def tagS2 : TagSys :=
  ⟨some 7, some 7, 1, [CallerPhase.done 7, CallerPhase.start]⟩

def tagS3 : TagSys :=
  ⟨some 7, some 7, 1, [CallerPhase.done 7, CallerPhase.done 7]⟩

theorem tagInv_init (k n : Nat) : TagInv k n (TagSys.init n) := by
  refine ⟨by simp [TagSys.init], by simp [TagSys.init], ?_, ?_, ?_, ?_⟩
  · intro _
    refine ⟨rfl, rfl, ?_⟩
    intro c hc id
    have := List.eq_of_mem_replicate hc
    simp [this]
  · intro id h
    simp [TagSys.init] at h
  · intro id h
    simp [TagSys.init] at h
  · intro c hc id h
    have := List.eq_of_mem_replicate hc
    simp [this] at h

theorem tagInv_step (k n : Nat) (s s' : TagSys) (hstep : TagStep k s s')
    (hinv : TagInv k n s) : TagInv k n s' := by
  obtain ⟨hlen, hcr, hcold, hcache, hremote, hdone⟩ := hinv
  cases hstep with
  | fastHit i id hget hc =>
    obtain ⟨hk, hcr1⟩ := hcache id hc
    refine ⟨by simpa using hlen, hcr, ?_, hcache, hremote, ?_⟩
    · intro hnone
      simp at hnone
      exact absurd hnone (by simp [hc])
    · intro c hc' id' h'
      rcases List.mem_or_eq_of_mem_set hc' with hmem | hset
      · exact hdone c hmem id' h'
      · subst hset
        cases h'
        exact hk
  | fastMiss i hget hc =>
    refine ⟨by simpa using hlen, hcr, ?_, hcache, hremote, ?_⟩
    · intro _
      obtain ⟨h1, h2, h3⟩ := hcold hc
      refine ⟨h1, h2, ?_⟩
      intro c hc' id h'
      rcases List.mem_or_eq_of_mem_set hc' with hmem | hset
      · exact h3 c hmem id h'
      · subst hset
        simp at h'
    · intro c hc' id h'
      rcases List.mem_or_eq_of_mem_set hc' with hmem | hset
      · exact hdone c hmem id h'
      · subst hset
        simp at h'
  | lockedHit i id hget hc =>
    obtain ⟨hk, hcr1⟩ := hcache id hc
    refine ⟨by simpa using hlen, hcr, ?_, hcache, hremote, ?_⟩
    · intro hnone
      simp at hnone
      exact absurd hnone (by simp [hc])
    · intro c hc' id' h'
      rcases List.mem_or_eq_of_mem_set hc' with hmem | hset
      · exact hdone c hmem id' h'
      · subst hset
        cases h'
        exact hk
  | lockedRemoteHit i id hget hc hr =>
    obtain ⟨hrn, _, _⟩ := hcold hc
    rw [hrn] at hr
    cases hr
  | lockedCreate i hget hc hr =>
    obtain ⟨hrn, hcr0, hnod⟩ := hcold hc
    refine ⟨by simpa using hlen, by simp [hcr0], ?_, ?_, ?_, ?_⟩
    · intro hnone
      simp at hnone
    · intro id h
      simp at h
      simp [h, hcr0]
    · intro id h
      simp at h
      simp [h]
    · intro c hc' id h'
      rcases List.mem_or_eq_of_mem_set hc' with hmem | hset
      · exact absurd h' (hnod c hmem id)
      · subst hset
        cases h'
        rfl

theorem tagInv_reachable (k n : Nat) (s : TagSys) (h : TagReachable k n s) :
    TagInv k n s := by
  induction h with
  | refl => exact tagInv_init k n
  | tail _ hstep ih => exact tagInv_step k n _ _ hstep ih

/-- C2. In the double-checked-locking model of `getOrCreateTagID` — every
caller's miss path runs atomically because `tagCacheMutex.Lock` is held for
its whole extent, and the fast path is one atomic cache read — any
interleaving of concurrent first-time resolutions of one previously-unknown
name in which every caller has returned issued the `createTag` call exactly
once, and every caller returned the identifier `k` the server assigned at
creation. -/
theorem tag_creation_exactly_once (k n : Nat) (s : TagSys)
    (hreach : TagReachable k n s) (hn : 1 ≤ n)
    (hall : s.callers.all CallerPhase.isDone = true) :
    s.creates = 1 ∧ s.callers.all (fun c => c == CallerPhase.done k) = true := by
  obtain ⟨hlen, hcr, hcold, hcache, hremote, hdone⟩ := tagInv_reachable k n s hreach
  have hpos : 0 < s.callers.length := by omega
  obtain ⟨c0, hc0⟩ := List.exists_mem_of_length_pos hpos
  have hc0done : c0.isDone = true := by
    have := List.all_eq_true.mp hall c0 hc0
    simpa using this
  obtain ⟨id0, hid0⟩ : ∃ id, c0 = CallerPhase.done id := by
    cases c0 with
    | start => simp [CallerPhase.isDone] at hc0done
    | sawMiss => simp [CallerPhase.isDone] at hc0done
    | done id => exact ⟨id, rfl⟩
  have hcreates : s.creates = 1 := by
    cases hcachest : s.cache with
    | none =>
      obtain ⟨_, _, hnod⟩ := hcold hcachest
      exact absurd hid0 (hnod c0 hc0 id0)
    | some idc => exact (hcache idc hcachest).2
  refine ⟨hcreates, List.all_eq_true.mpr ?_⟩
  intro c hc
  have hcd : c.isDone = true := by
    have := List.all_eq_true.mp hall c hc
    simpa using this
  cases c with
  | start => simp [CallerPhase.isDone] at hcd
  | sawMiss => simp [CallerPhase.isDone] at hcd
  | done id =>
    have := hdone (CallerPhase.done id) hc id rfl
    simp [this]

theorem tagS3_reachable : TagReachable 7 2 tagS3 := by
  have h1 : TagStep 7 (TagSys.init 2) tagS1 :=
    TagStep.fastMiss (TagSys.init 2) 0 rfl rfl
  have h2 : TagStep 7 tagS1 tagS2 :=
    TagStep.lockedCreate tagS1 0 rfl rfl rfl
  have h3 : TagStep 7 tagS2 tagS3 :=
    TagStep.fastHit tagS2 1 7 rfl rfl
  exact Relation.ReflTransGen.tail
    (Relation.ReflTransGen.tail (Relation.ReflTransGen.tail
      Relation.ReflTransGen.refl h1) h2) h3

/-- Witness for C2 on a concrete two-caller interleaving. -/
theorem tag_creation_exactly_once_witness :
    tagS3.creates = 1 ∧
    tagS3.callers.all (fun c => c == CallerPhase.done 7) = true :=
  tag_creation_exactly_once 7 2 tagS3 tagS3_reachable (by decide) (by decide)

end Paperless

namespace Enex

/-! ## Theorems -/

/-- C9. The claim: type-filter admission is case-insensitive and the token
"txt" in any letter case admits "text/plain". Counterexample: the source
replaces a token by "plain" only when it is exactly `"txt"` (the comparison
`fileType == "txt"` runs on the original token before lowercasing), so the
admission list `["TXT"]` lowercases to `["txt"]` and does not admit
`text/plain`. -/
theorem checkFileType_txt_case_counterexample :
    checkFileType ["TXT"] "text/plain" = Except.ok false :=
  rfl

/-- C9 (amended). Admission compares the lowercased MIME-derived extension
with the lowercased tokens, so `"PDF"` admits `application/pdf` and `"pdf"`
admits `application/PDF`; but the `txt → plain` equivalence applies only to
the exactly-lowercase token `"txt"`: `"txt"` admits `text/plain` while
`"TXT"` does not (it is merely lowercased to `"txt"`, which matches subtype
`txt`, not `plain`), and `"txt"` no longer admits subtype `txt`. -/
theorem checkFileType_case_insensitive_amended :
    checkFileType ["PDF"] "application/pdf" = Except.ok true ∧
    checkFileType ["pdf"] "application/PDF" = Except.ok true ∧
    checkFileType ["txt"] "text/plain" = Except.ok true ∧
    checkFileType ["TXT"] "text/plain" = Except.ok false ∧
    checkFileType ["TXT"] "text/TXT" = Except.ok true ∧
    checkFileType ["txt"] "text/txt" = Except.ok false :=
  ⟨rfl, rfl, rfl, rfl, rfl, rfl⟩

/-- C5. The claim: decoding strips newlines and spaces and then re-pads with
`=` to a multiple of 4 whenever the derived padding length is non-zero, so
the decoder receives a whitespace-free, correctly padded string. The code
computes the padded value but then restarts the pipeline from the raw
`resource.Data` when stripping, discarding the padding: for the unpadded
payload `"QQ"` the derived padding length is 2 (non-zero) and the spec-
described normalization yields `"QQ=="`, yet the code hands the decoder the
unpadded `"QQ"` (likewise `"QQ \n"` becomes `"QQ"`), whose length is not a
multiple of 4. -/
theorem normalizeData_discards_padding :
    normalizeData "QQ" = "QQ" ∧
    "QQ".length % 4 = 2 ∧
    specNormalizeData "QQ" = "QQ==" ∧
    normalizeData "QQ \n" = "QQ" ∧
    (normalizeData "QQ").length % 4 = 2 :=
  ⟨rfl, by decide, rfl, rfl, by decide⟩

/-- C1. The claim: the archive extractor rejects any entry whose resolved
path escapes the destination root. `unzipFile` (pkg/enex/unzip.go) applies
only the directory and system-artifact filters and then writes to
`filepath.Join(destDir, file.Name)` with no confinement check, so the
archive entry `"../evil.txt"` extracted to `/tmp/extract` is written to
`/tmp/evil.txt`, outside the destination root. -/
theorem unzipFile_zip_slip :
    unzipWrites "/tmp/extract" [{ name := "../evil.txt", isDir := false }] =
      ["/tmp/evil.txt"] ∧
    pathUnderRoot "/tmp/extract" "/tmp/evil.txt" = false ∧
    pathUnderRoot "/tmp/extract" "/tmp/extract/sub/ok.txt" = true :=
  ⟨rfl, rfl, rfl⟩

/-- C3. The claim: an absent (nil) retry-decision callback declines by
policy, so `Process` performs no further retry cycle. Counterexample: the
source initializes `shouldRetry := true` and only overwrites it when
`RetryPromptFunc != nil` (its doc comment reads "If nil, retries are
automatically attempted without prompting"), so with a nil callback and one
accumulated failure the decision is `true` and the loop runs a retry cycle
rather than zero. -/
theorem process_nil_callback_counterexample :
    shouldRetryDecision nilPromptOpts 1 = true ∧
    (retryLoop nilPromptOpts allFailCycle 1 [cNote]).2.2 = 1 :=
  ⟨rfl, rfl⟩

/-- C3 (amended). With fuel remaining, the coordinator starts at least one
further retry cycle exactly when the failure accumulator is non-empty and
the retry decision allows it — and an absent (nil) callback makes that
decision `true`, so `Process` retries automatically instead of declining. -/
theorem process_retry_decision_amended (opts : ProcessOptions)
    (cycle : List Note → List Note × Nat) (fuel : Nat) (failed : List Note)
    (hfuel : 0 < fuel) :
    ((retryLoop opts cycle fuel failed).2.2 ≠ 0 ↔
      failed ≠ [] ∧ shouldRetryDecision opts failed.length = true) ∧
    (opts.retryPromptFunc = none → shouldRetryDecision opts failed.length = true) := by
  obtain ⟨f, rfl⟩ : ∃ f, fuel = f + 1 := ⟨fuel - 1, (Nat.succ_pred_eq_of_pos hfuel).symm⟩
  constructor
  · by_cases hlen : failed.length = 0
    · simp [retryLoop, hlen, List.length_eq_zero.mp hlen]
    · by_cases hdec : shouldRetryDecision opts failed.length = true
      · have hne : failed ≠ [] := fun h => hlen (by simp [h])
        simp [retryLoop, hlen, hdec, hne]
      · simp only [Bool.not_eq_true] at hdec
        simp [retryLoop, hlen, hdec]
  · intro hnone
    simp [shouldRetryDecision, hnone]

/-- Witness for the amended C3 theorem at fuel 1, a nil callback and one
persistently failing note. -/
theorem process_retry_decision_amended_witness :
    ((retryLoop nilPromptOpts allFailCycle 1 [cNote]).2.2 ≠ 0 ↔
      [cNote] ≠ [] ∧ shouldRetryDecision nilPromptOpts [cNote].length = true) ∧
    (nilPromptOpts.retryPromptFunc = none →
      shouldRetryDecision nilPromptOpts [cNote].length = true) :=
  process_retry_decision_amended nilPromptOpts allFailCycle 1 [cNote] (by decide)

/-! ### Worker theorems (C4, C6, C7, C10) -/

/-- C4. A note with zero resources is skipped before the counter update and
before any channel send — `processNote` contributes no notes-processed
increment, no uploads and no failure-channel send; a note with at least one
resource passes the `len(note.Resources) < 1` guard and runs
`NumNotes.Add(1)` exactly once, whatever the resource loop then does. -/
theorem processNote_counts_notes (env : WorkerEnv) (note : Note) :
    (note.resources = [] → processNote env note = (0, 0, 0)) ∧
    (note.resources ≠ [] → (processNote env note).1 = 1) := by
  constructor
  · intro h
    simp [processNote, h]
  · intro h
    have hlen : ¬note.resources.length < 1 := by
      simpa [Nat.lt_one_iff, List.length_eq_zero] using h
    simp [processNote, hlen]

/-- Witness for C4: a resource-less note contributes nothing; a one-resource
note is counted exactly once. -/
theorem processNote_counts_notes_witness :
    processNote envRemote noteEmpty = (0, 0, 0) ∧
    (processNote envRemote noteOne).1 = 1 :=
  ⟨(processNote_counts_notes envRemote noteEmpty).1 rfl,
   (processNote_counts_notes envRemote noteOne).2 (by simp [noteOne])⟩

/-- C6. A resource whose normalized payload fails the base64-alphabet
validation regex makes the loop `continue`: the step is a skip (no
failure-channel send, no counter change) and the remaining resources are
processed exactly as if the malformed one were absent. -/
theorem invalid_base64_skips (env : WorkerEnv) (note : Note) (r : Resource)
    (rs : List Resource) (h : validBase64 (normalizeData r.data) = false) :
    processResource env note r = StepOutcome.skip ∧
    processResources env note (r :: rs) = processResources env note rs := by
  have hstep : processResource env note r = StepOutcome.skip := by
    unfold processResource
    cases hc : checkFileType env.fileTypes r.mime with
    | error e => rfl
    | ok wanted =>
      cases wanted with
      | false => rfl
      | true => simp [h]
  exact ⟨hstep, by simp [processResources, hstep]⟩

/-- Witness for C6 at the test suite's malformed payload. -/
theorem invalid_base64_skips_witness :
    processResource envRemote noteOne rBad = StepOutcome.skip ∧
    processResources envRemote noteOne (rBad :: [rPdf]) =
      processResources envRemote noteOne [rPdf] :=
  invalid_base64_skips envRemote noteOne rBad [rPdf] rfl

/-- In disk mode the remote branch is unreachable, so no step is a remote
upload. -/
theorem processResource_disk_no_remote (env : WorkerEnv) (note : Note)
    (r : Resource) (h : env.outputFolder ≠ "") :
    processResource env note r ≠ StepOutcome.uploadedRemote := by
  unfold processResource
  (repeat' split) <;> simp_all <;> (repeat' split) <;> simp_all

/-- C10. With an output folder configured, the worker persists at most one
resource per note and cycle: the `break` after the first completed disk
write ends the resource loop, so the uploaded-files counter rises by at most
one per note, and once a write succeeds no later resource is even examined. -/
theorem disk_mode_at_most_one_write (env : WorkerEnv) (note : Note)
    (rs rs' : List Resource) (r : Resource) (h : env.outputFolder ≠ "") :
    (processResources env note rs).1 ≤ 1 ∧
    (processResource env note r = StepOutcome.diskSaved →
      executedResources env note (r :: rs') = [r]) := by
  constructor
  · induction rs with
    | nil => simp [processResources]
    | cons head tail ih =>
      cases hstep : processResource env note head with
      | skip => simpa [processResources, hstep] using ih
      | failBreak => simp [processResources, hstep]
      | diskSaved => simp [processResources, hstep]
      | uploadedRemote => exact absurd hstep (processResource_disk_no_remote env note head h)
  · intro hstep
    simp [executedResources, hstep]

/-- Witness for C10 in disk mode at a two-resource note: one upload counted,
and after the first saved resource the loop executes nothing else. -/
theorem disk_mode_at_most_one_write_witness :
    (processResources envDisk noteMulti [rPdf, rPdf2]).1 ≤ 1 ∧
    executedResources envDisk noteMulti (rPdf :: [rPdf2]) = [rPdf] :=
  ⟨(disk_mode_at_most_one_write envDisk noteMulti [rPdf, rPdf2] [rPdf2] rPdf
      (by simp [envDisk, envRemote])).1,
   (disk_mode_at_most_one_write envDisk noteMulti [rPdf, rPdf2] [rPdf2] rPdf
      (by simp [envDisk, envRemote])).2 rfl⟩

/-- C7. The claim: the files-uploaded counter increments once per
successfully persisted resource, where remote success is any 2xx response.
Counterexample: `Upload` (pkg/paperless/methods.go line 98) returns an error
for every status other than exactly 200, so a 201 Created response — a 2xx
that means the document was accepted — routes the note to the failure
channel and the counter is never incremented. -/
theorem upload_2xx_counterexample :
    specIs2xx 201 = true ∧
    uploadRespOk 201 = false ∧
    processResource env201 noteOne rPdf = StepOutcome.failBreak ∧
    (processResources env201 noteOne [rPdf]).1 = 0 :=
  ⟨rfl, rfl, rfl, rfl⟩

/-- C7 (amended). Within the resources a cycle actually examines, the
uploaded-files counter increments exactly once per resource whose step
persisted it — a completed disk write or a document POST answered with
exactly 200 (not any 2xx) — and a remote step only counts as persisted when
the upload status was precisely 200. -/
theorem uploads_counted_once_amended (env : WorkerEnv) (note : Note)
    (rs : List Resource) (r : Resource) :
    (processResources env note rs).1 =
      (executedResources env note rs).countP (fun x => isSuccessStep env note x) ∧
    (processResource env note r = StepOutcome.uploadedRemote →
      ∃ st, env.uploadStatus r = some st ∧ uploadRespOk st = true) := by
  constructor
  · induction rs with
    | nil => simp [processResources, executedResources]
    | cons head tail ih =>
      cases hstep : processResource env note head with
      | skip =>
        simp [processResources, executedResources, hstep, List.countP_cons,
          isSuccessStep, ih]
      | failBreak =>
        simp [processResources, executedResources, hstep, List.countP_cons,
          isSuccessStep]
      | diskSaved =>
        simp [processResources, executedResources, hstep, List.countP_cons,
          isSuccessStep]
      | uploadedRemote =>
        simp [processResources, executedResources, hstep, List.countP_cons,
          isSuccessStep, ih]
  · intro hstep
    unfold processResource at hstep
    (repeat' split at hstep) <;> (try simp_all) <;>
      (try (repeat' split at hstep)) <;> (try simp_all)

/-- Witness for the amended C7 theorem: in the all-success remote
environment the one examined resource is counted exactly once, and its
remote step indeed answered with status 200. -/
theorem uploads_counted_once_amended_witness :
    (processResources envRemote noteOne [rPdf]).1 =
      (executedResources envRemote noteOne [rPdf]).countP
        (fun x => isSuccessStep envRemote noteOne x) ∧
    ∃ st, envRemote.uploadStatus rPdf = some st ∧ uploadRespOk st = true :=
  ⟨(uploads_counted_once_amended envRemote noteOne [rPdf] rPdf).1,
   (uploads_counted_once_amended envRemote noteOne [rPdf] rPdf).2 rfl⟩

/-! ### Disk saver theorems (C8) -/

/-- `findFreeName` only ever answers with a name that is not taken. -/
theorem findFreeName_not_taken (existing : List String) (base ext : String) :
    ∀ (fuel i : Nat) (c : String),
      findFreeName existing base ext fuel i = some c →
      existing.contains c = false := by
  intro fuel
  induction fuel with
  | zero =>
    intro i c h
    simp [findFreeName] at h
  | succ f ih =>
    intro i c h
    unfold findFreeName at h
    by_cases htaken : existing.contains (base ++ "-" ++ toString i ++ ext) = true
    · rw [if_pos htaken] at h
      exact ih (i + 1) c h
    · rw [if_neg htaken] at h
      cases h
      simpa using htaken

/-- C8. Collision-avoiding save: a save never rebinds a path that already
exists (any existing path still maps to its old contents afterwards), and
three successive saves of `test.txt` into the same folder yield `test.txt`,
`test-1.txt` and `test-2.txt` with each earlier file's bytes intact. -/
theorem saveResourceToDisk_never_overwrites (fs : List (String × String))
    (data fileName outputFolder key : String)
    (h : (fs.map Prod.fst).contains key = true) :
    List.lookup key (saveResourceToDisk fs data fileName outputFolder) =
      List.lookup key fs ∧
    saveFs3 = [("/test/output/test-2.txt", "d3"), ("/test/output/test-1.txt", "d2"),
      ("/test/output/test.txt", "d1")] := by
  refine ⟨?_, rfl⟩
  unfold saveResourceToDisk
  by_cases htarget : ((fs.map Prod.fst).contains (outputFolder ++ "/" ++ fileName)) = true
  · rw [if_pos htarget]
    cases hfind : findFreeName (fs.map Prod.fst)
        (outputFolder ++ "/" ++ baseOf fileName) (extOf fileName) (fs.length + 1) 1 with
    | none => rfl
    | some free =>
      have hfree := findFreeName_not_taken (fs.map Prod.fst)
        (outputFolder ++ "/" ++ baseOf fileName) (extOf fileName) (fs.length + 1) 1 free hfind
      have hne : (key == free) = false := by
        by_cases hkf : key = free
        · subst hkf
          rw [h] at hfree
          cases hfree
        · simpa using hkf
      simp [List.lookup, hne]
  · rw [if_neg htarget]
    have hne : (key == outputFolder ++ "/" ++ fileName) = false := by
      by_cases hkf : key = outputFolder ++ "/" ++ fileName
      · subst hkf
        rw [h] at htarget
        exact absurd rfl htarget
      · simpa using hkf
    simp [List.lookup, hne]

/-- Witness for C8: the second save of `test.txt` leaves the first file's
binding untouched, and the three-save progression is as claimed. -/
theorem saveResourceToDisk_never_overwrites_witness :
    List.lookup "/test/output/test.txt"
        (saveResourceToDisk saveFs1 "d2" "test.txt" "/test/output") =
      List.lookup "/test/output/test.txt" saveFs1 ∧
    saveFs3 = [("/test/output/test-2.txt", "d3"), ("/test/output/test-1.txt", "d2"),
      ("/test/output/test.txt", "d1")] :=
  saveResourceToDisk_never_overwrites saveFs1 "d2" "test.txt" "/test/output"
    "/test/output/test.txt" rfl

end Enex
